import Mathlib

/-!
Verification of the API endpoint validator (`main.py`).

The program is embedded shallowly:

* Parsed YAML/JSON documents become the inductive type `Doc`
  (Null | Bool | Number | String | Sequence | Mapping); mapping keys are
  modelled as strings, which covers every document the claims mention.
* Python operations used by `validate_endpoints` — truthiness, the `in`
  operator, subscripting, and `.keys()` inspection — are embedded with
  their Python semantics, returning `Except PyErr` so that a raised
  exception (`TypeError`, `KeyError`, `AttributeError`) is observable.
* `load_schema` is embedded over an abstract file system
  (`String → Option String`) and abstract YAML/JSON parsers, since the
  parsers themselves are external libraries.
* `find_endpoints` is embedded over the walk result: the ordered list of
  files, each carrying either its text content or a read error.  The
  route-extracting regular expression `@app\.route\(['"](.*?)['"]` is
  implemented concretely (`findall`).
* `main`'s control flow (exceptions → exit 1, non-empty error list →
  exit 1, otherwise exit 0) is `runMain`.
-/

/-- A parsed YAML/JSON document value (Python object tree). -/
inductive Doc where
  | null
  | bool (b : Bool)
  | num (n : Int)
  | str (s : String)
  | seq (xs : List Doc)
  | map (kvs : List (String × Doc))

/-- Python exceptions that the validator's operations can raise. -/
inductive PyErr where
  | typeError
  | keyError
  | attributeError
deriving DecidableEq

/-- Python truthiness (`if not self.schema`). -/
def Doc.truthy : Doc → Bool
  | .null => false
  | .bool b => b
  | .num n => n != 0
  | .str s => s != ""
  | .seq xs => !xs.isEmpty
  | .map kvs => !kvs.isEmpty

/-- Python `sub in s` for strings: substring test (empty string always in). -/
def pyStrContains (s sub : String) : Bool :=
  if sub = "" then true else decide (1 < (s.splitOn sub).length)

/-- Equality of a document value with a Python string (used by `in` on lists):
`k == elem` is `True` only when the element is the same string. -/
def Doc.isStr (k : String) : Doc → Bool
  | .str s => s == k
  | _ => false

/-- Python `k in d` for a document value: key membership for mappings,
substring for strings, element membership for sequences; raises
`TypeError` on other values. -/
def Doc.mem (d : Doc) (k : String) : Except PyErr Bool :=
  match d with
  | .map kvs => .ok (kvs.lookup k).isSome
  | .str s => .ok (pyStrContains s k)
  | .seq xs => .ok (xs.any (Doc.isStr k))
  | _ => .error .typeError

/-- Python `d[k]` with a string key: mapping lookup (`KeyError` when
absent); any other value raises `TypeError`. -/
def Doc.subscript (d : Doc) (k : String) : Except PyErr Doc :=
  match d with
  | .map kvs =>
    match kvs.lookup k with
    | some v => .ok v
    | none => .error .keyError
  | _ => .error .typeError

/-- The recognized HTTP method names (source line 101). -/
def httpMethods : List String :=
  ["get", "post", "put", "delete", "patch", "options", "head"]

/-- Python `any(method in [...] for method in d.keys())`: only mappings
have `.keys()`; anything else raises `AttributeError`. -/
def Doc.keysAnyHttp (d : Doc) : Except PyErr Bool :=
  match d with
  | .map kvs => .ok (kvs.any (fun kv => httpMethods.contains kv.1))
  | _ => .error .attributeError

/-- The "not found" validation message (source line 95). -/
def notFoundMsg (endpoint file_path : String) : String :=
  "Endpoint \x27" ++ endpoint ++ "\x27 (defined in " ++ file_path ++
    ") not found in schema."

/-- The "no valid HTTP methods" validation message (source line 102). -/
def badMethodsMsg (endpoint : String) : String :=
  "Endpoint \x27" ++ endpoint ++ "\x27 in schema does not define valid HTTP methods."

/-- One iteration of the validation loop, given the value of
`self.schema['paths']`: membership test, then (in the else branch) the
method-key inspection. -/
def recordErrorAt (pathsVal : Doc) (file_path endpoint : String) :
    Except PyErr (Option String) :=
  match pathsVal.mem endpoint with
  | .error e => .error e
  | .ok false => .ok (some (notFoundMsg endpoint file_path))
  | .ok true =>
    match pathsVal.subscript endpoint with
    | .error e => .error e
    | .ok entry =>
      match entry.keysAnyHttp with
      | .error e => .error e
      | .ok hasHttp =>
        if hasHttp then .ok none else .ok (some (badMethodsMsg endpoint))

/-- One iteration of the validation loop as written in the source: the
schema is subscripted at `'paths'` inside the loop body. -/
def recordError (schema : Doc) (file_path endpoint : String) :
    Except PyErr (Option String) :=
  match schema.subscript "paths" with
  | .error e => .error e
  | .ok pathsVal => recordErrorAt pathsVal file_path endpoint

/-- The main pass of `validate_endpoints` (source lines 93–102): visit the
endpoint records in order, appending at most one error per record; a
raised exception aborts the loop (the accumulated list is lost). -/
def validateLoop (schema : Doc) : List (String × String) → Except PyErr (List String)
  | [] => .ok []
  | (file_path, endpoint) :: rest =>
    match recordError schema file_path endpoint with
    | .error e => .error e
    | .ok r =>
      match validateLoop schema rest with
      | .error e => .error e
      | .ok es =>
        .ok (match r with
          | some msg => msg :: es
          | none => es)

/-- `APIEndpointValidator.validate_endpoints` (source lines 77–104):
falsy schema → `["Schema not loaded."]`; `'paths'` key absent →
`["No paths defined in schema"]`; otherwise the per-record loop. -/
def validate_endpoints (schema : Doc) (endpoints : List (String × String)) :
    Except PyErr (List String) :=
  if !schema.truthy then .ok ["Schema not loaded."]
  else
    match schema.mem "paths" with
    | .error e => .error e
    | .ok pathsPresent =>
      if !pathsPresent then .ok ["No paths defined in schema"]
      else validateLoop schema endpoints

/-- The error categories of `load_schema` (source lines 45–56):
`FileNotFoundError`, the two parse-error families (each carrying the
underlying diagnostic), and the `ValueError` for unsupported extensions. -/
inductive LoadError where
  | notFound
  | yamlParse (msg : String)
  | jsonParse (msg : String)
  | unsupportedFormat
deriving DecidableEq

/-- Python `path.endswith(suffix)`. -/
def pyEndsWith (s suffix : String) : Bool :=
  suffix.data.isSuffixOf s.data

/-- `APIEndpointValidator.load_schema` (source lines 33–56), over an
abstract file system `fs` (path ↦ content when the file exists) and
abstract YAML/JSON parsers (the external libraries).  The file is opened
first (`FileNotFoundError` precedes the extension dispatch), then the
extension chooses the parser; an unrecognized extension raises
`ValueError` without parsing. -/
def load_schema (parseYaml parseJson : String → Except String Doc)
    (fs : String → Option String) (schema_path : String) : Except LoadError Doc :=
  match fs schema_path with
  | none => .error .notFound
  | some content =>
    if pyEndsWith schema_path ".yaml" || pyEndsWith schema_path ".yml" then
      match parseYaml content with
      | .ok d => .ok d
      | .error m => .error (.yamlParse m)
    else if pyEndsWith schema_path ".json" then
      match parseJson content with
      | .ok d => .ok d
      | .error m => .error (.jsonParse m)
    else .error .unsupportedFormat

/-! ### The route-extracting regular expression

`re.findall(r"@app\.route\(['\"](.*?)['\"]", content)` (source line 71):
scan left to right; at each position try to match the literal
`@app.route(`, one quote character, then a lazy capture of
non-newline characters up to the next quote character; on success emit
the capture and resume after the match, otherwise shift one character. -/

/-- One of the two quote characters matched by the class. -/
def isQuoteChar (c : Char) : Bool :=
  c == Char.ofNat 39 || c == Char.ofNat 34

/-- Lazy `(.*?)` followed by a closing quote: the shortest run of
non-newline characters up to a quote character; returns the capture and
the remainder after the closing quote. -/
def scanCapture : List Char → Option (List Char × List Char)
  | [] => none
  | c :: rest =>
    if isQuoteChar c then some ([], rest)
    else if c == Char.ofNat 10 then none
    else
      match scanCapture rest with
      | some (cap, rem) => some (c :: cap, rem)
      | none => none

/-- The literal part of the pattern. -/
def routeLit : List Char := "@app.route(".data

/-- Try to match the whole pattern at the head of the input; on success
return the captured group and the remainder after the match. -/
def tryMatch (cs : List Char) : Option (String × List Char) :=
  if routeLit.isPrefixOf cs then
    match cs.drop routeLit.length with
    | [] => none
    | q :: rest =>
      if isQuoteChar q then
        match scanCapture rest with
        | some (cap, rem) => some (String.mk cap, rem)
        | none => none
      else none
  else none

/-- Left-to-right non-overlapping scan.  Fuel counts characters: every
successful match consumes at least one character, so `cs.length` fuel is
always enough, making this equal to the unbounded scan. -/
def findallGo : Nat → List Char → List String
  | 0, _ => []
  | _, [] => []
  | fuel + 1, c :: rest =>
    match tryMatch (c :: rest) with
    | some (cap, rem) => cap :: findallGo fuel rem
    | none => findallGo fuel rest

/-- `re.findall` of the route pattern over a file's text. -/
def findall (cs : List Char) : List String :=
  findallGo cs.length cs

/-- `APIEndpointValidator.find_endpoints` (source lines 58–75), over the
walk result: the ordered list of files (full path, content or read
error).  Only `.py` files are opened; a read failure propagates and
aborts the scan.  `endpoints` is the validator's current list
(`self.endpoints`), which is extended, never cleared. -/
def find_endpoints (endpoints : List (String × String)) :
    List (String × Except String String) → Except String (List (String × String))
  | [] => .ok endpoints
  | (file_path, content) :: rest =>
    if pyEndsWith file_path ".py" then
      match content with
      | .error e => .error e
      | .ok text =>
        find_endpoints
          (endpoints ++ (findall text.data).map (fun endpoint => (file_path, endpoint))) rest
    else find_endpoints endpoints rest

/-- The records `find_endpoints` discovers in one pass over readable
files (a pure description, used to state its accumulation behavior). -/
def discovered : List (String × Except String String) → List (String × String)
  | [] => []
  | (file_path, content) :: rest =>
    if pyEndsWith file_path ".py" then
      (match content with
        | .ok text => (findall text.data).map (fun endpoint => (file_path, endpoint))
        | .error _ => []) ++ discovered rest
    else discovered rest

/-- `n` successive calls of `find_endpoints` on the same validator
instance, threading `self.endpoints`. -/
def findN (files : List (String × Except String String)) :
    Nat → List (String × String) → Except String (List (String × String))
  | 0, endpoints => .ok endpoints
  | n + 1, endpoints =>
    match find_endpoints endpoints files with
    | .error e => .error e
    | .ok endpoints2 => findN files n endpoints2

/-- Every `.py` file in the walk is readable. -/
def allPyReadable (files : List (String × Except String String)) : Bool :=
  files.all (fun f =>
    !(pyEndsWith f.1 ".py") ||
      (match f.2 with
        | .ok _ => true
        | .error _ => false))

/-- `main` (source lines 122–149): load the schema, scan, validate; any
exception exits with status 1, a non-empty error list exits 1, otherwise
the run exits 0. -/
def runMain (parseYaml parseJson : String → Except String Doc)
    (fs : String → Option String) (schema_path : String)
    (files : List (String × Except String String)) : Nat :=
  match load_schema parseYaml parseJson fs schema_path with
  | .error _ => 1
  | .ok schema =>
    match find_endpoints [] files with
    | .error _ => 1
    | .ok endpoints =>
      match validate_endpoints schema endpoints with
      | .error _ => 1
      | .ok errors => if errors.isEmpty then 0 else 1

/-- The error (if any) a single endpoint record contributes when no
exception is raised on it. -/
def recordErrorOk (schema : Doc) (p : String × String) : Option String :=
  match recordError schema p.1 p.2 with
  | .ok r => r
  | .error _ => none

/-- `d` is a mapping. -/
def Doc.isMapDoc : Doc → Bool
  | .map _ => true
  | _ => false

/-- Schemas on which `validate_endpoints` performs only operations that
cannot raise: the never-loaded schema (`null`), or a mapping whose
`'paths'` value — when the key is present — is itself a mapping all of
whose values are mappings (so `.keys()` is always called on a mapping). -/
def schemaSafe : Doc → Bool
  | .null => true
  | .map kvs =>
    match kvs.lookup "paths" with
    | some (Doc.map pkvs) => pkvs.all (fun kv => kv.2.isMapDoc)
    | some _ => false
    | none => true
  | _ => false

/-! ### Helper lemmas -/

theorem lookup_ne_nil {α β : Type} [BEq α] {l : List (α × β)} {k : α} {v : β}
    (h : l.lookup k = some v) : l ≠ [] := by
  intro he
  subst he
  simp [List.lookup] at h

theorem lookup_to_mem {α β : Type} [BEq α] [LawfulBEq α] {l : List (α × β)} {k : α} {v : β}
    (h : l.lookup k = some v) : (k, v) ∈ l := by
  induction l with
  | nil => simp [List.lookup] at h
  | cons hd tl ih =>
    obtain ⟨a, b⟩ := hd
    by_cases hk : k = a
    · subst hk
      simp [List.lookup] at h
      subst h
      exact List.mem_cons_self _ _
    · have hb : (k == a) = false := by simp [hk]
      simp [List.lookup, hb] at h
      exact List.mem_cons_of_mem _ (ih h)

theorem isEmpty_false_of_ne_nil {α : Type} {l : List α} (h : l ≠ []) :
    l.isEmpty = false := by
  cases l with
  | nil => exact absurd rfl h
  | cons a t => rfl

theorem recordError_map {kvs : List (String × Doc)} {pv : Doc}
    (h : kvs.lookup "paths" = some pv) (file_path endpoint : String) :
    recordError (Doc.map kvs) file_path endpoint = recordErrorAt pv file_path endpoint := by
  simp [recordError, Doc.subscript, h]

theorem validate_eq_loop {kvs : List (String × Doc)} {pv : Doc}
    (h : kvs.lookup "paths" = some pv) (endpoints : List (String × String)) :
    validate_endpoints (Doc.map kvs) endpoints = validateLoop (Doc.map kvs) endpoints := by
  have hemp : kvs.isEmpty = false := isEmpty_false_of_ne_nil (lookup_ne_nil h)
  simp [validate_endpoints, Doc.truthy, hemp, Doc.mem, h]

theorem validateLoop_ok_filterMap {schema : Doc} {eps : List (String × String)}
    {es : List String} (h : validateLoop schema eps = .ok es) :
    es = eps.filterMap (recordErrorOk schema) := by
  induction eps generalizing es with
  | nil =>
    simp [validateLoop] at h
    simp [h.symm]
  | cons p rest ih =>
    obtain ⟨fp, ep⟩ := p
    simp only [validateLoop] at h
    cases hr : recordError schema fp ep with
    | error e => rw [hr] at h; simp at h
    | ok r =>
      rw [hr] at h
      cases hl : validateLoop schema rest with
      | error e => rw [hl] at h; simp at h
      | ok es2 =>
        rw [hl] at h
        cases r with
        | none =>
          simp at h
          simp [List.filterMap_cons, recordErrorOk, hr, ← h, ih hl]
        | some msg =>
          simp at h
          simp [List.filterMap_cons, recordErrorOk, hr, ← h, ih hl]

theorem validateLoop_append {schema : Doc} (xs ys : List (String × String))
    {es1 es2 : List String} (h1 : validateLoop schema xs = .ok es1)
    (h2 : validateLoop schema ys = .ok es2) :
    validateLoop schema (xs ++ ys) = .ok (es1 ++ es2) := by
  induction xs generalizing es1 with
  | nil =>
    simp only [validateLoop] at h1
    have he : es1 = [] := (Except.ok.inj h1).symm
    subst he
    simpa using h2
  | cons p rest ih =>
    obtain ⟨fp, ep⟩ := p
    simp only [validateLoop] at h1
    rw [List.cons_append]
    simp only [validateLoop]
    cases hr : recordError schema fp ep with
    | error e => rw [hr] at h1; simp at h1
    | ok r =>
      rw [hr] at h1
      cases hl : validateLoop schema rest with
      | error e => rw [hl] at h1; simp at h1
      | ok esr =>
        rw [hl] at h1
        rw [ih hl]
        cases r with
        | none =>
          simp at h1
          simp [← h1]
        | some msg =>
          simp at h1
          simp [← h1]

theorem validateLoop_safe {schema : Doc}
    (h : ∀ file_path endpoint, ∃ r, recordError schema file_path endpoint = .ok r)
    (eps : List (String × String)) : ∃ es, validateLoop schema eps = .ok es := by
  induction eps with
  | nil => exact ⟨[], rfl⟩
  | cons p rest ih =>
    obtain ⟨fp, ep⟩ := p
    obtain ⟨r, hr⟩ := h fp ep
    obtain ⟨es, hes⟩ := ih
    cases r with
    | none => exact ⟨es, by simp only [validateLoop, hr, hes]⟩
    | some msg => exact ⟨msg :: es, by simp only [validateLoop, hr, hes]⟩

theorem find_endpoints_ok {files : List (String × Except String String)}
    (h : allPyReadable files = true) (eps0 : List (String × String)) :
    find_endpoints eps0 files = .ok (eps0 ++ discovered files) := by
  induction files generalizing eps0 with
  | nil => simp [find_endpoints, discovered]
  | cons f rest ih =>
    obtain ⟨fp, c⟩ := f
    simp only [allPyReadable, List.all_cons, Bool.and_eq_true] at h
    obtain ⟨h1, h2⟩ := h
    have hrest : allPyReadable rest = true := h2
    cases hpy : pyEndsWith fp ".py" with
    | false =>
      simp only [find_endpoints, discovered, hpy, Bool.false_eq_true, if_false]
      exact ih hrest eps0
    | true =>
      cases c with
      | error e => rw [hpy] at h1; simp at h1
      | ok text =>
        simp only [find_endpoints, discovered, hpy, if_true]
        rw [ih hrest]
        simp [List.append_assoc]

theorem findN_ok {files : List (String × Except String String)}
    (h : allPyReadable files = true) (n : Nat) (eps0 : List (String × String)) :
    findN files n eps0 = .ok (eps0 ++ List.flatten (List.replicate n (discovered files))) := by
  induction n generalizing eps0 with
  | zero => simp [findN]
  | succ n ih =>
    simp only [findN, find_endpoints_ok h eps0]
    rw [ih (eps0 ++ discovered files)]
    simp [List.replicate_succ, List.append_assoc]

theorem count_join_replicate (n : Nat) (d : List (String × String))
    (rec : String × String) :
    (List.flatten (List.replicate n d)).count rec = n * d.count rec := by
  induction n with
  | zero => simp
  | succ n ih =>
    simp only [List.replicate_succ, List.flatten_cons, List.count_append, ih]
    ring

/-! ### Claims -/

/-- C1 counterexample: the empty mapping lacks a `paths` key, yet
`validate_endpoints` returns `["Schema not loaded."]` for it (the empty
dict is falsy in Python), not `["No paths defined in schema"]`. -/
theorem schema_without_paths_cex :
    validate_endpoints (Doc.map []) [("a.py", "/users")] ≠
      Except.ok ["No paths defined in schema"] := by
  intro h
  have h2 : (Except.ok ["Schema not loaded."] : Except PyErr (List String)) =
      Except.ok ["No paths defined in schema"] := h
  have h3 := Except.ok.inj h2
  injection h3 with h4 h5
  exact absurd h4 (by decide)

/-- C1 (amended): for every NON-EMPTY schema mapping lacking a `paths`
key and every sequence of endpoint records, `validate_endpoints` returns
exactly `["No paths defined in schema"]` and never inspects any
individual record (the result does not depend on the records and no
per-endpoint error is emitted); the empty mapping instead hits the falsy
check and yields `["Schema not loaded."]`. -/
theorem schema_without_paths_short_circuit (kvs : List (String × Doc))
    (hne : kvs ≠ []) (hnp : kvs.lookup "paths" = none)
    (endpoints : List (String × String)) :
    validate_endpoints (Doc.map kvs) endpoints = .ok ["No paths defined in schema"] := by
  have hemp : kvs.isEmpty = false := isEmpty_false_of_ne_nil hne
  simp [validate_endpoints, Doc.truthy, hemp, Doc.mem, hnp]

/-- Witness for C1 (amended) at a concrete non-empty schema. -/
theorem schema_without_paths_short_circuit_witness :
    validate_endpoints (Doc.map [("info", Doc.null)]) [("a.py", "/users")] =
      .ok ["No paths defined in schema"] :=
  schema_without_paths_short_circuit [("info", Doc.null)] (List.cons_ne_nil _ _) rfl
    [("a.py", "/users")]

/-- C2 counterexample: for the schema `\x7b"paths": \x7b\x7d\x7d` the `paths` key IS
present, so the per-record loop runs and the error returned is the
"not found" one, not `"No paths defined in schema"`. -/
theorem scenario_b_cex :
    validate_endpoints (Doc.map [("paths", Doc.map [])]) [("a.py", "/users")] ≠
      Except.ok ["No paths defined in schema"] := by
  intro h
  have h2 : (Except.ok ["Endpoint \x27/users\x27 (defined in a.py) not found in schema."] :
      Except PyErr (List String)) = Except.ok ["No paths defined in schema"] := h
  have h3 := Except.ok.inj h2
  injection h3 with h4 h5
  exact absurd h4 (by decide)

/-- C2 (amended): for the schema `\x7b"paths": \x7b\x7d\x7d` and the record
`("a.py", "/users")`, `validate_endpoints` returns exactly one error,
namely `"Endpoint '/users' (defined in a.py) not found in schema."`,
and the run exits with status 1. -/
theorem scenario_b_amended :
    validate_endpoints (Doc.map [("paths", Doc.map [])]) [("a.py", "/users")] =
      .ok ["Endpoint \x27/users\x27 (defined in a.py) not found in schema."]
    ∧ runMain (fun _ => .ok (Doc.map [("paths", Doc.map [])])) (fun _ => .error "unused")
        (fun _ => some "paths: \x7b\x7d") "schema.yaml"
        [("a.py", .ok "@app.route(\x27/users\x27)")] = 1 :=
  ⟨rfl, rfl⟩

/-- C5: calling `validate_endpoints` before any successful
`load_schema` (the schema field still holds `None`) does not crash and
returns exactly `["Schema not loaded."]`, for every record sequence. -/
theorem validate_before_load (endpoints : List (String × String)) :
    validate_endpoints Doc.null endpoints = .ok ["Schema not loaded."] := rfl

/-- C9: a successfully loaded but falsy schema — the empty mapping
(JSON `\x7b\x7d`) or null (empty YAML document) — is conflated with an absent
one: `validate_endpoints` returns `["Schema not loaded."]`, not
`["No paths defined in schema"]`, and the not-loaded branch is reachable
after a successful `load_schema` (e.g. a `.json` file parsing to the
empty mapping). -/
theorem falsy_schema_conflation :
    (∀ endpoints, validate_endpoints (Doc.map []) endpoints = .ok ["Schema not loaded."]
      ∧ validate_endpoints Doc.null endpoints = .ok ["Schema not loaded."])
    ∧ (["Schema not loaded."] ≠ (["No paths defined in schema"] : List String))
    ∧ (∀ (parseYaml parseJson : String → Except String Doc)
        (fs : String → Option String) (p c : String),
        fs p = some c → pyEndsWith p ".yaml" = false → pyEndsWith p ".yml" = false →
        pyEndsWith p ".json" = true → parseJson c = .ok (Doc.map []) →
        load_schema parseYaml parseJson fs p = .ok (Doc.map [])) := by
  refine ⟨fun endpoints => ⟨rfl, rfl⟩, ?_, ?_⟩
  · intro h
    injection h with h1 h2
    exact absurd h1 (by decide)
  · intro parseYaml parseJson fs p c hfs hy hml hj hparse
    simp [load_schema, hfs, hy, hml, hj, hparse]

/-- Witness for C9 at a concrete loader run. -/
theorem falsy_schema_conflation_witness :
    load_schema (fun _ => .error "unused") (fun _ => .ok (Doc.map []))
      (fun _ => some "\x7b\x7d") "schema.json" = .ok (Doc.map [])
    ∧ validate_endpoints (Doc.map []) [("a.py", "/users")] = .ok ["Schema not loaded."] :=
  ⟨falsy_schema_conflation.2.2 _ _ _ "schema.json" "\x7b\x7d" rfl rfl rfl rfl rfl,
   (falsy_schema_conflation.1 [("a.py", "/users")]).1⟩

/-- C3 counterexample: with a well-formed schema mapping whose `paths`
entry `/u` carries a null method value (e.g. YAML `/u:` with no body),
validating a record for `/u` performs `.keys()` on `None` and raises
`AttributeError` — `validate_endpoints` is not exception-free on all
well-formed inputs. -/
theorem validate_raises_cex :
    validate_endpoints (Doc.map [("paths", Doc.map [("/u", Doc.null)])]) [("a.py", "/u")] =
      .error PyErr.attributeError := rfl

/-- C3 (amended): `validate_endpoints` raises no exception on the
never-loaded schema or on any schema mapping whose `paths` value — when
the key is present — is a mapping all of whose values are mappings; when
a scanned endpoint reaches a non-mapping method value (e.g. null or a
scalar), the method-key inspection raises `AttributeError` instead. -/
theorem validate_pure_on_safe_schema (schema : Doc) (endpoints : List (String × String))
    (h : schemaSafe schema = true) :
    ∃ errors, validate_endpoints schema endpoints = .ok errors := by
  cases schema with
  | null => exact ⟨["Schema not loaded."], rfl⟩
  | bool b => simp [schemaSafe] at h
  | num n => simp [schemaSafe] at h
  | str s => simp [schemaSafe] at h
  | seq xs => simp [schemaSafe] at h
  | map kvs =>
    by_cases hne : kvs = []
    · subst hne
      exact ⟨["Schema not loaded."], rfl⟩
    · have hemp : kvs.isEmpty = false := isEmpty_false_of_ne_nil hne
      cases hp : kvs.lookup "paths" with
      | none =>
        exact ⟨["No paths defined in schema"],
          by simp [validate_endpoints, Doc.truthy, hemp, Doc.mem, hp]⟩
      | some pv =>
        simp only [schemaSafe] at h
        rw [hp] at h
        cases pv with
        | null => simp at h
        | bool b => simp at h
        | num n => simp at h
        | str s => simp at h
        | seq xs => simp at h
        | map pkvs =>
          simp only at h
          have hsafe : ∀ file_path endpoint, ∃ r,
              recordError (Doc.map kvs) file_path endpoint = .ok r := by
            intro fp ep
            rw [recordError_map hp]
            cases hl : pkvs.lookup ep with
            | none =>
              exact ⟨some (notFoundMsg ep fp), by simp [recordErrorAt, Doc.mem, hl]⟩
            | some v =>
              have hv := List.all_eq_true.mp h _ (lookup_to_mem hl)
              cases v with
              | map mkvs =>
                cases hany : mkvs.any (fun kv => httpMethods.contains kv.1) with
                | true =>
                  refine ⟨none, ?_⟩
                  simp only [recordErrorAt, Doc.mem, hl, Option.isSome_some, Doc.subscript,
                    Doc.keysAnyHttp, hany, if_true]
                | false =>
                  refine ⟨some (badMethodsMsg ep), ?_⟩
                  simp only [recordErrorAt, Doc.mem, hl, Option.isSome_some, Doc.subscript,
                    Doc.keysAnyHttp, hany, if_false]
                  rfl
              | null => simp [Doc.isMapDoc] at hv
              | bool b => simp [Doc.isMapDoc] at hv
              | num n => simp [Doc.isMapDoc] at hv
              | str s => simp [Doc.isMapDoc] at hv
              | seq xs => simp [Doc.isMapDoc] at hv
          obtain ⟨es, hes⟩ := validateLoop_safe hsafe endpoints
          exact ⟨es, by rw [validate_eq_loop hp]; exact hes⟩

/-- Witness for C3 (amended) at a concrete safe schema. -/
theorem validate_pure_on_safe_schema_witness :
    ∃ errors, validate_endpoints
      (Doc.map [("paths", Doc.map [("/users", Doc.map [("get", Doc.map [])])])])
      [("a.py", "/users"), ("b.py", "/x")] = .ok errors :=
  validate_pure_on_safe_schema _ _ rfl

/-- C4: for every schema mapping containing a `paths` key and every
record sequence on which `validate_endpoints` returns normally, the
error list is exactly the in-order `filterMap` of the per-record check —
hence at most one error per record (the not-found and bad-methods checks
are mutually exclusive), output order matches discovery order, and the
total never exceeds the number of records; a record whose path is absent
from `paths` contributes exactly the "not found in schema." string, and
a record whose method mapping contains none of get/post/put/delete/
patch/options/head (case-sensitive) contributes exactly the "does not
define valid HTTP methods." string. -/
theorem validate_per_record (kvs : List (String × Doc)) (pv : Doc)
    (eps : List (String × String)) (es : List String)
    (hp : kvs.lookup "paths" = some pv)
    (hok : validate_endpoints (Doc.map kvs) eps = .ok es) :
    es = eps.filterMap (recordErrorOk (Doc.map kvs))
    ∧ es.length ≤ eps.length
    ∧ (∀ file_path endpoint, (file_path, endpoint) ∈ eps →
        ∀ pkvs, pv = Doc.map pkvs →
          (pkvs.lookup endpoint = none →
            recordErrorOk (Doc.map kvs) (file_path, endpoint) =
              some (notFoundMsg endpoint file_path))
          ∧ (∀ mkvs, pkvs.lookup endpoint = some (Doc.map mkvs) →
              mkvs.all (fun kv => !httpMethods.contains kv.1) = true →
              recordErrorOk (Doc.map kvs) (file_path, endpoint) =
                some (badMethodsMsg endpoint))) := by
  have hloop : validateLoop (Doc.map kvs) eps = .ok es := by
    rw [← validate_eq_loop hp]
    exact hok
  have h1 := validateLoop_ok_filterMap hloop
  refine ⟨h1, ?_, ?_⟩
  · rw [h1]
    exact List.length_filterMap_le _ _
  · intro file_path endpoint hin pkvs hpv
    subst hpv
    constructor
    · intro hnone
      simp only [recordErrorOk, recordError_map hp, recordErrorAt, Doc.mem, hnone,
        Option.isSome_none]
    · intro mkvs hl hall
      have hany : (mkvs.any fun kv => httpMethods.contains kv.1) = false := by
        rw [List.any_eq_false]
        intro kv hkv
        have hb := List.all_eq_true.mp hall kv hkv
        simpa using hb
      simp only [recordErrorOk, recordError_map hp, recordErrorAt, Doc.mem, hl,
        Option.isSome_some, Doc.subscript, Doc.keysAnyHttp, hany, if_false]
      rfl

/-- Witness for C4 at a concrete schema and record list. -/
theorem validate_per_record_witness :
    (["Endpoint \x27/x\x27 (defined in b.py) not found in schema."] : List String).length ≤
      ([("a.py", "/users"), ("b.py", "/x")] : List (String × String)).length :=
  (validate_per_record [("paths", Doc.map [("/users", Doc.map [("get", Doc.map [])])])]
    (Doc.map [("/users", Doc.map [("get", Doc.map [])])])
    [("a.py", "/users"), ("b.py", "/x")]
    ["Endpoint \x27/x\x27 (defined in b.py) not found in schema."] rfl rfl).2.1

/-- C6: `load_schema` fails with `notFound` when the file does not
exist; with a parse error carrying the underlying diagnostic when the
recognized extension's parser rejects the content; and with
`unsupportedFormat` when an existing file's path ends in none of
`.yaml`/`.yml`/`.json` — in which case neither parser is ever invoked.
On every load failure the run exits 1 and its outcome is independent of
the scanned tree (the scan result is never consulted), so no partial or
fallback schema is ever used. -/
theorem load_schema_error_cases (parseYaml parseJson : String → Except String Doc)
    (fs : String → Option String) (schema_path : String) :
    (fs schema_path = none →
      load_schema parseYaml parseJson fs schema_path = .error .notFound)
    ∧ (∀ content msg, fs schema_path = some content →
        (pyEndsWith schema_path ".yaml" || pyEndsWith schema_path ".yml") = true →
        parseYaml content = .error msg →
        load_schema parseYaml parseJson fs schema_path = .error (.yamlParse msg))
    ∧ (∀ content msg, fs schema_path = some content →
        pyEndsWith schema_path ".yaml" = false → pyEndsWith schema_path ".yml" = false →
        pyEndsWith schema_path ".json" = true → parseJson content = .error msg →
        load_schema parseYaml parseJson fs schema_path = .error (.jsonParse msg))
    ∧ (∀ content, fs schema_path = some content →
        pyEndsWith schema_path ".yaml" = false → pyEndsWith schema_path ".yml" = false →
        pyEndsWith schema_path ".json" = false →
        load_schema parseYaml parseJson fs schema_path = .error .unsupportedFormat)
    ∧ (∀ e, load_schema parseYaml parseJson fs schema_path = .error e →
        ∀ files1 files2,
          runMain parseYaml parseJson fs schema_path files1 = 1 ∧
          runMain parseYaml parseJson fs schema_path files1 =
            runMain parseYaml parseJson fs schema_path files2) := by
  refine ⟨?_, ?_, ?_, ?_, ?_⟩
  · intro h
    simp [load_schema, h]
  · intro content msg hfs hext hparse
    simp [load_schema, hfs, hext, hparse]
  · intro content msg hfs hy hml hj hparse
    simp [load_schema, hfs, hy, hml, hj, hparse]
  · intro content hfs hy hml hj
    simp [load_schema, hfs, hy, hml, hj]
  · intro e herr files1 files2
    simp [runMain, herr]

/-- Witness for C6: an existing `.txt` schema file is rejected as an
unsupported format and the run exits 1 without consulting the scan. -/
theorem load_schema_error_cases_witness :
    load_schema (fun _ => .error "y") (fun _ => .error "j") (fun _ => some "content")
      "schema.txt" = .error .unsupportedFormat
    ∧ runMain (fun _ => .error "y") (fun _ => .error "j") (fun _ => some "content")
      "schema.txt" [("a.py", .ok "@app.route(\x27/u\x27)")] = 1 := by
  have hu := (load_schema_error_cases (fun _ => .error "y") (fun _ => .error "j")
    (fun _ => some "content") "schema.txt").2.2.2.1 "content" rfl rfl rfl rfl
  refine ⟨hu, ?_⟩
  exact ((load_schema_error_cases (fun _ => .error "y") (fun _ => .error "j")
    (fun _ => some "content") "schema.txt").2.2.2.2 .unsupportedFormat hu
    [("a.py", .ok "@app.route(\x27/u\x27)")] []).1

/-- C7: if any `.py` file encountered by the walk cannot be read, the
whole scan fails — whatever records were already accumulated, the
result is an error for every starting state, so no endpoint list reaches
validation and the run exits with status 1. -/
theorem unreadable_file_aborts_scan (files : List (String × Except String String))
    (h : ∃ file_path msg, (file_path, Except.error msg) ∈ files ∧
      pyEndsWith file_path ".py" = true) :
    (∀ eps0, ∃ e, find_endpoints eps0 files = .error e)
    ∧ (∀ parseYaml parseJson fs schema_path,
        runMain parseYaml parseJson fs schema_path files = 1) := by
  have aux : ∀ (fl : List (String × Except String String)),
      (∃ file_path msg, (file_path, Except.error msg) ∈ fl ∧
        pyEndsWith file_path ".py" = true) →
      ∀ eps0, ∃ e, find_endpoints eps0 fl = .error e := by
    intro fl
    induction fl with
    | nil =>
      intro hh eps0
      obtain ⟨fp, msg, hmem, _⟩ := hh
      simp at hmem
    | cons f rest ih =>
      intro hh eps0
      obtain ⟨fp, msg, hmem, hpy⟩ := hh
      obtain ⟨a, c⟩ := f
      rcases List.mem_cons.mp hmem with heq | hmem2
      · have ha : a = fp := congrArg Prod.fst heq.symm
        have hc : c = Except.error msg := congrArg Prod.snd heq.symm
        subst ha
        subst hc
        exact ⟨msg, by simp [find_endpoints, hpy]⟩
      · cases hpyA : pyEndsWith a ".py" with
        | false =>
          obtain ⟨e, he⟩ := ih ⟨fp, msg, hmem2, hpy⟩ eps0
          exact ⟨e, by simp [find_endpoints, hpyA, he]⟩
        | true =>
          cases c with
          | error e => exact ⟨e, by simp [find_endpoints, hpyA]⟩
          | ok text =>
            obtain ⟨e, he⟩ := ih ⟨fp, msg, hmem2, hpy⟩
              (eps0 ++ (findall text.data).map (fun endpoint => (a, endpoint)))
            exact ⟨e, by simp [find_endpoints, hpyA, he]⟩
  refine ⟨aux files h, ?_⟩
  intro parseYaml parseJson fs schema_path
  obtain ⟨e, he⟩ := aux files h []
  cases hload : load_schema parseYaml parseJson fs schema_path with
  | error le => simp [runMain, hload]
  | ok schema => simp [runMain, hload, he]

/-- Witness for C7 at a concrete one-file tree. -/
theorem unreadable_file_aborts_scan_witness :
    ∃ e, find_endpoints [("old.py", "/kept")] [("a.py", Except.error "denied")] =
      Except.error e :=
  (unreadable_file_aborts_scan [("a.py", Except.error "denied")]
    ⟨"a.py", "denied", by simp, rfl⟩).1 [("old.py", "/kept")]

/-- C8: a schema loaded through the YAML branch and one loaded through
the JSON branch that carry the same `paths` structure produce identical
error sequences from `validate_endpoints` for every record sequence —
validation depends only on the parsed `paths` value, never on the
original format. -/
theorem yaml_json_same_validation (parseYaml parseJson : String → Except String Doc)
    (fsY fsJ : String → Option String) (yaml_path json_path : String)
    (kvs1 kvs2 : List (String × Doc)) (pv : Doc) (eps : List (String × String))
    (hyext : (pyEndsWith yaml_path ".yaml" || pyEndsWith yaml_path ".yml") = true)
    (hjy : pyEndsWith json_path ".yaml" = false) (hjm : pyEndsWith json_path ".yml" = false)
    (hjext : pyEndsWith json_path ".json" = true)
    (h1 : load_schema parseYaml parseJson fsY yaml_path = .ok (Doc.map kvs1))
    (h2 : load_schema parseYaml parseJson fsJ json_path = .ok (Doc.map kvs2))
    (hp1 : kvs1.lookup "paths" = some pv) (hp2 : kvs2.lookup "paths" = some pv) :
    validate_endpoints (Doc.map kvs1) eps = validate_endpoints (Doc.map kvs2) eps := by
  rw [validate_eq_loop hp1, validate_eq_loop hp2]
  induction eps with
  | nil => rfl
  | cons p rest ih =>
    obtain ⟨fp, ep⟩ := p
    simp only [validateLoop, recordError_map hp1, recordError_map hp2, ih]

/-- Witness for C8: the two loaded schemas agree on `paths` (the JSON
one carries an extra top-level key) and validate identically. -/
theorem yaml_json_same_validation_witness :
    validate_endpoints (Doc.map [("paths", Doc.map [("/users", Doc.map [("get", Doc.map [])])])])
      [("a.py", "/users"), ("b.py", "/x")] =
    validate_endpoints (Doc.map [("openapi", Doc.str "3.0"),
      ("paths", Doc.map [("/users", Doc.map [("get", Doc.map [])])])])
      [("a.py", "/users"), ("b.py", "/x")] :=
  yaml_json_same_validation
    (fun _ => .ok (Doc.map [("paths", Doc.map [("/users", Doc.map [("get", Doc.map [])])])]))
    (fun _ => .ok (Doc.map [("openapi", Doc.str "3.0"),
      ("paths", Doc.map [("/users", Doc.map [("get", Doc.map [])])])]))
    (fun _ => some "y") (fun _ => some "j") "s.yaml" "s.json" _ _
    (Doc.map [("/users", Doc.map [("get", Doc.map [])])])
    [("a.py", "/users"), ("b.py", "/x")] rfl rfl rfl rfl rfl rfl rfl rfl

/-- C10: `find_endpoints` extends the validator's endpoint list without
clearing it: one pass appends the discovered records to any starting
state; `n` passes from the empty state yield the discovered list
concatenated `n` times, so every record occurs `n` times as often as in
one pass; and a subsequent `validate_endpoints` then emits the
corresponding error sequence `n` times over. -/
theorem find_endpoints_accumulates (files : List (String × Except String String))
    (n : Nat) (h : allPyReadable files = true) :
    (∀ eps0, find_endpoints eps0 files = .ok (eps0 ++ discovered files))
    ∧ findN files n [] = .ok (List.flatten (List.replicate n (discovered files)))
    ∧ (∀ rec, (List.flatten (List.replicate n (discovered files))).count rec =
        n * (discovered files).count rec)
    ∧ (∀ (kvs : List (String × Doc)) (pv : Doc) (es : List String),
        kvs.lookup "paths" = some pv →
        validate_endpoints (Doc.map kvs) (discovered files) = .ok es →
        validate_endpoints (Doc.map kvs)
            (List.flatten (List.replicate n (discovered files))) =
          .ok (List.flatten (List.replicate n es))) := by
  refine ⟨find_endpoints_ok h, ?_, fun rec => count_join_replicate n _ rec, ?_⟩
  · simpa using findN_ok h n []
  · intro kvs pv es hp hv
    rw [validate_eq_loop hp] at hv ⊢
    induction n with
    | zero => rfl
    | succ n ih =>
      simp only [List.replicate_succ, List.flatten_cons]
      exact validateLoop_append _ _ hv ih

/-- Witness for C10: two passes over a one-route tree discover the
record twice, and validation reports the missing endpoint twice. -/
theorem find_endpoints_accumulates_witness :
    findN [("a.py", Except.ok "@app.route(\x27/x\x27)")] 2 [] =
      .ok [("a.py", "/x"), ("a.py", "/x")]
    ∧ validate_endpoints (Doc.map [("paths", Doc.map [("/u", Doc.map [("get", Doc.map [])])])])
        [("a.py", "/x"), ("a.py", "/x")] =
      .ok ["Endpoint \x27/x\x27 (defined in a.py) not found in schema.",
        "Endpoint \x27/x\x27 (defined in a.py) not found in schema."] :=
  ⟨(find_endpoints_accumulates [("a.py", Except.ok "@app.route(\x27/x\x27)")] 2 rfl).2.1,
   (find_endpoints_accumulates [("a.py", Except.ok "@app.route(\x27/x\x27)")] 2 rfl).2.2.2
     [("paths", Doc.map [("/u", Doc.map [("get", Doc.map [])])])]
     (Doc.map [("/u", Doc.map [("get", Doc.map [])])])
     ["Endpoint \x27/x\x27 (defined in a.py) not found in schema."] rfl rfl⟩
